import Mathlib

/-!
Verification development for the prolif topology utilities
(`prolif/utils.py`): the valence-based bond-order/charge repair engine
`update_bonds_and_charges`, and the mol2 record scanning and
residue-splitting pipeline (`get_mol2_records`, `mol2_reader`,
`get_residues_from_mol2`, `residues_from_block`).

Python strings are modelled as `List Char`; a file is a `List (List Char)`
of its lines, each line keeping its trailing newline as `readlines` does.
Python exceptions raised by the modelled code paths (IndexError on list or
token indexing, KeyError on dict lookup, ValueError from `int`) are
modelled with `Except PyErr`.  The external RDKit parser
`Chem.MolFromMol2Block`, which returns a molecule or `None`, is a
parameter `parse : List Char → Option α`.
-/

/-- Python exception kinds raised by the modelled code paths. -/
inductive PyErr where
  | indexError
  | keyError
  | valueError
deriving DecidableEq

deriving instance DecidableEq for Except

/-- Shorthand: a Lean string literal as the `List Char` model of a Python str. -/
def toL (s : String) : List Char := s.toList

/-- Whitespace for Python `str.split()` (the characters occurring in mol2 data). -/
def isWs (c : Char) : Bool := c == ' ' || c == '\t' || c == '\n' || c == '\r'

/-- Single pass behind `pySplit`: `cur` is the reversed token being read. -/
def pySplitAux (cur : List Char) : List Char → List (List Char)
  | [] => if cur.isEmpty then [] else [cur.reverse]
  | c :: cs =>
    if isWs c then
      if cur.isEmpty then pySplitAux [] cs else cur.reverse :: pySplitAux [] cs
    else pySplitAux (c :: cur) cs

/-- Python `line.split()`: split on runs of whitespace, dropping empty fields. -/
def pySplit (l : List Char) : List (List Char) := pySplitAux [] l

/-- Digits of `n` in base 10 prepended to `acc`; the fuel is an upper bound
on the number of digits, never exhausted by `natToChars`. -/
def natToCharsAux : Nat → Nat → List Char → List Char
  | 0, _, acc => acc
  | fuel + 1, n, acc =>
    if n < 10 then Nat.digitChar n :: acc
    else natToCharsAux fuel (n / 10) (Nat.digitChar (n % 10) :: acc)

/-- Python `str(n)` for a natural number. -/
def natToChars (n : Nat) : List Char := natToCharsAux (n + 1) n []

/-- Digit-string value; ValueError when empty or not all digits (Python `int`). -/
def digitsVal (ds : List Char) : Except PyErr Nat :=
  if ds = [] then .error .valueError
  else if ds.all Char.isDigit then
    .ok (ds.foldl (fun acc c => acc * 10 + (c.toNat - 48)) 0)
  else .error .valueError

/-- Python `int(s)` on a whitespace-free token. -/
def pyInt (s : List Char) : Except PyErr Int :=
  match s with
  | '-' :: ds => (digitsVal ds).map (fun n => -(n : Int))
  | ds => (digitsVal ds).map (fun n => (n : Int))

/-- Python list head, raising IndexError on an empty list (`item[0]`). -/
def headE {α : Type} (l : List α) : Except PyErr α :=
  match l with
  | [] => .error .indexError
  | a :: _ => .ok a

/-- Python indexing `l[i]` for a nonnegative index, IndexError out of range. -/
def getE {α : Type} (l : List α) (i : Nat) : Except PyErr α :=
  match l.get? i with
  | some a => .ok a
  | none => .error .indexError

/-- Token `data[k]` of a split line, then `int` conversion. -/
def pyIntAt (data : List (List Char)) (k : Nat) : Except PyErr Int := do
  let t ← getE data k
  pyInt t

/-- Python dict lookup where the dict was filled by repeated assignment in
list order (later assignments overwrite earlier ones); KeyError if absent. -/
def dictGet {α β : Type} [DecidableEq α] (mp : List (α × β)) (k : α) : Except PyErr β :=
  match (mp.filter (fun p => p.1 = k)).getLast? with
  | some p => .ok p.2
  | none => .error .keyError

/-- Iteration order of the Python `set` of residue names, modelled as
first-encounter order with duplicates removed (the set order of CPython is
unspecified; nothing below depends on it beyond determinism). -/
def dedupFirst (l : List (List Char)) : List (List Char) :=
  l.foldl (fun acc x => if x ∈ acc then acc else acc ++ [x]) []

/-- Python slice `l[start:stop]` for a nonnegative start: truncates silently
at the end of the list, and is empty when `stop ≤ start`. -/
def slicePy {α : Type} (start : Nat) (stop : Int) (l : List α) : List α :=
  (l.take stop.toNat).drop start

/-- `re.search(marker, line)` viewed as a Boolean: the marker occurs as a
contiguous substring of the line. -/
def containsMarker (p l : List Char) : Bool := decide (List.IsInfix p l)

/-- `get_mol2_records` (utils.py:86): one linear pass recording the indices of
lines containing the MOLECULE, ATOM and BOND markers. -/
def getRecsAux (i : Nat) (lines : List (List Char)) :
    List Nat × List Nat × List Nat :=
  match lines with
  | [] => ([], [], [])
  | l :: ls =>
    let r := getRecsAux (i + 1) ls
    if containsMarker (toL "@<TRIPOS>MOLECULE") l then (i :: r.1, r.2.1, r.2.2)
    else if containsMarker (toL "@<TRIPOS>ATOM") l then (r.1, i :: r.2.1, r.2.2)
    else if containsMarker (toL "@<TRIPOS>BOND") l then (r.1, r.2.1, i :: r.2.2)
    else r

/-- `get_mol2_records(lines)`: the three ordered sequences of record starts. -/
def get_mol2_records (lines : List (List Char)) : List Nat × List Nat × List Nat :=
  getRecsAux 0 lines

/-- The structured content of one synthesized per-residue block: residue
name, renumbered atom lines and renumbered bond lines. -/
structure ResidueRec where
  name : List Char
  newAtoms : List (List Char)
  newBonds : List (List Char)
deriving DecidableEq

/-- The atom-renumbering loop of `residues_from_block` (utils.py:197-201):
for the i-th atom line (0-based), record `map_atoms[old_id] = i+1` and emit
`str(i+1) + line[len(old_id):]`.  `line.split()[0]` raises IndexError on a
line with no tokens. -/
def renumberAtomsAux (i : Nat) (ls : List (List Char)) :
    Except PyErr (List (List Char) × List (List Char × Nat)) :=
  match ls with
  | [] => .ok ([], [])
  | l :: rest => do
    let tok ← headE (pySplit l)
    let r ← renumberAtomsAux (i + 1) rest
    .ok ((natToChars (i + 1) ++ l.drop tok.length) :: r.1, (tok, i + 1) :: r.2)

/-- Renumber the atom lines of one residue, 1-based. -/
def renumberAtoms (ls : List (List Char)) :
    Except PyErr (List (List Char) × List (List Char × Nat)) :=
  renumberAtomsAux 0 ls

/-- The bond-renumbering loop of `residues_from_block` (utils.py:202-208):
new sequential bond id, endpoints rewritten through the per-residue id map,
formatted as `id a1 a2 type` with a trailing newline. -/
def renumberBondsAux (i : Nat) (mp : List (List Char × Nat))
    (ls : List (List Char)) : Except PyErr (List (List Char)) :=
  match ls with
  | [] => .ok []
  | l :: rest => do
    let d := pySplit l
    let a1 ← getE d 1
    let a2 ← getE d 2
    let bt ← getE d 3
    let m1 ← dictGet mp a1
    let m2 ← dictGet mp a2
    let r ← renumberBondsAux (i + 1) mp rest
    .ok ((natToChars (i + 1) ++ [' '] ++ natToChars m1 ++ [' '] ++ natToChars m2
          ++ [' '] ++ bt ++ ['\n']) :: r)

/-- Build the structured per-residue block for one residue name. -/
def buildResidue (resname : List Char) (atomLs bondLs : List (List Char)) :
    Except PyErr ResidueRec := do
  let ra ← renumberAtoms atomLs
  let rb ← renumberBondsAux 0 ra.2 bondLs
  .ok ⟨resname, ra.1, rb⟩

/-- The residue grouping and renumbering of `residues_from_block`
(utils.py:151-208): scan the block records, read the declared counts, slice
the atom and bond sections (Python slices truncate silently), bucket atom
lines by residue-name field `data[7]`, keep only bonds whose two endpoint
ids map to the same residue, and renumber each residue 1-based. -/
def residue_records (block : List (List Char)) : Except PyErr (List ResidueRec) := do
  let recs := get_mol2_records block
  let mol_line ← headE recs.1
  let fal ← headE recs.2.1
  let fbl ← headE recs.2.2
  let header ← getE block (mol_line + 2)
  let na ← pyIntAt (pySplit header) 0
  let nb ← pyIntAt (pySplit header) 1
  let atomLines := slicePy (fal + 1) ((fal : Int) + 1 + na) block
  let pairs ← atomLines.mapM (fun l => do
    let r ← getE (pySplit l) 7
    let id0 ← getE (pySplit l) 0
    pure (id0, r, l))
  let resnames := dedupFirst (pairs.map (fun p => p.2.1))
  let id2res := pairs.map (fun p => (p.1, p.2.1))
  let bondLines := slicePy (fbl + 1) ((fbl : Int) + 1 + nb) block
  let tagged ← bondLines.mapM (fun l => do
    let d := pySplit l
    let a1 ← getE d 1
    let a2 ← getE d 2
    let r1 ← dictGet id2res a1
    let r2 ← dictGet id2res a2
    pure (if r1 = r2 then some (r1, l) else none))
  let kept := tagged.filterMap id
  resnames.mapM (fun r =>
    buildResidue r ((pairs.filter (fun p => p.2.1 = r)).map (fun p => p.2.2))
      ((kept.filter (fun q => q.1 = r)).map (fun q => q.2)))

/-- The synthetic single-residue mol2 text assembled by the template in
`residues_from_block` (utils.py:210-225). -/
def assembleBlock (r : ResidueRec) : List Char :=
  toL "@<TRIPOS>MOLECULE\n" ++ r.name ++ toL "\n"
    ++ natToChars r.newAtoms.length ++ toL " " ++ natToChars r.newBonds.length
    ++ toL "\nSMALL\nUSER_CHARGES\n@<TRIPOS>ATOM\n"
    ++ r.newAtoms.flatten
    ++ toL "@<TRIPOS>BOND\n" ++ r.newBonds.flatten

/-- `residues_from_block(block, ignoreH)` (utils.py:146-230): build the
per-residue blocks, hand each to the external parser, keep the parsed
molecules tagged with their residue name and silently drop parse failures. -/
def residues_from_block {α : Type} (parse : List Char → Option α)
    (block : List (List Char)) : Except PyErr (List (List Char × α)) := do
  let rs ← residue_records block
  pure (rs.filterMap (fun r => (parse (assembleBlock r)).map (fun m => (r.name, m))))

/-- The block slice of `get_residues_from_mol2` (utils.py:140):
`lines[mol_line : mol_line + first_atom_line - mol_line + num_atoms+1 + num_bonds+1]`,
whose stop index is `first_atom_line + num_atoms + num_bonds + 2`. -/
def extract_block (mol_line first_atom_line : Nat) (num_atoms num_bonds : Int)
    (lines : List (List Char)) : List (List Char) :=
  slicePy mol_line ((first_atom_line : Int) + num_atoms + num_bonds + 2) lines

/-- `get_residues_from_mol2` (utils.py:129-143): read the declared atom and
bond counts from the line two below the MOLECULE marker, slice the block
and split it into residues.  `first_bond_line` is accepted and unused,
exactly as in the source. -/
def get_residues_from_mol2 {α : Type} (parse : List Char → Option α)
    (mol_line first_atom_line first_bond_line : Nat)
    (lines : List (List Char)) : Except PyErr (List (List Char × α)) := do
  let header ← getE lines (mol_line + 2)
  let na ← pyIntAt (pySplit header) 0
  let nb ← pyIntAt (pySplit header) 1
  let _ := first_bond_line
  residues_from_block parse (extract_block mol_line first_atom_line na nb lines)

/-- Truncating three-way zip, as Python `zip`. -/
def zip3 {α β γ : Type} : List α → List β → List γ → List (α × β × γ)
  | a :: as_, b :: bs, c :: cs => (a, b, c) :: zip3 as_ bs cs
  | _, _, _ => []

/-- The loop body of `mol2_reader` (utils.py:123-125): process each zipped
(MOLECULE, ATOM, BOND) start triple in order, extending the result list;
an exception anywhere aborts the whole call. -/
def processTriples {α : Type} (parse : List Char → Option α)
    (lines : List (List Char)) :
    List (Nat × Nat × Nat) → Except PyErr (List (List Char × α))
  | [] => .ok []
  | (m, a, b) :: rest => do
    let rs ← get_residues_from_mol2 parse m a b lines
    let more ← processTriples parse lines rest
    pure (rs ++ more)

/-- `mol2_reader` (utils.py:111-126) after the file read: scan the records
and pair the three start sequences positionally with a truncating zip. -/
def mol2_reader {α : Type} (parse : List Char → Option α)
    (lines : List (List Char)) : Except PyErr (List (List Char × α)) :=
  let r := get_mol2_records lines
  processTriples parse lines (zip3 r.1 r.2.1 r.2.2)

/-- Spec-side variant of `mol2_reader`, following the spec words for the
record-index invariant: the three sequences must be the same length for a
well-formed file, and a malformed file (missing a section) is a data error,
not silently repaired. -/
def mol2_reader_spec {α : Type} (parse : List Char → Option α)
    (lines : List (List Char)) : Except PyErr (List (List Char × α)) :=
  let r := get_mol2_records lines
  if r.1.length = r.2.1.length ∧ r.2.1.length = r.2.2.length then
    processTriples parse lines (zip3 r.1 r.2.1 r.2.2)
  else .error .valueError

/-- An RDKit atom as used by `update_bonds_and_charges`: atomic number and
mutable formal charge (`SetFormalCharge`). -/
structure Atom where
  atomicNum : Nat
  charge : Int
deriving DecidableEq

/-- An RDKit bond: the two atom indices and the bond order
(1 = SINGLE, 2 = DOUBLE, 3 = TRIPLE; aromatic input is outside the model). -/
structure Bond where
  a1 : Nat
  a2 : Nat
  order : Nat
deriving DecidableEq

/-- A molecule: atoms indexed by list position (`GetIdx`), bonds in
insertion order.  The molecules fed to `update_bonds_and_charges` have all
hydrogens explicit, so `GetTotalValence` is the sum of incident bond
orders and `UpdatePropertyCache` is a pure recomputation of that sum,
modelled by computing `totalValence` on demand from the current state. -/
structure Mol where
  atoms : List Atom
  bonds : List Bond
deriving DecidableEq

/-- `PERIODIC_TABLE.GetValenceList`, restricted to the elements exercised
here, with the values of the RDKit periodic table (ordered increasingly):
H 1; C 4; N 3; O 2; P 3,5; S 2,4,6. -/
def GetValenceList : Nat → List Int
  | 1 => [1]
  | 6 => [4]
  | 7 => [3]
  | 8 => [2]
  | 15 => [3, 5]
  | 16 => [2, 4, 6]
  | _ => []

/-- Atomic number of atom `i` (0 for an out-of-range index, never hit by
the modelled traversal). -/
def atomicNumAt (m : Mol) (i : Nat) : Nat :=
  ((m.atoms.get? i).map Atom.atomicNum).getD 0

/-- `atom.GetTotalValence()`: sum of the orders of the incident bonds. -/
def totalValence (m : Mol) (i : Nat) : Int :=
  m.bonds.foldl (fun acc b => if b.a1 = i ∨ b.a2 = i then acc + (b.order : Int) else acc) 0

/-- The list `electrons = [v - vtot for v in valences]` of utils.py:22,
computed for atom `i` in the current state. -/
def electronsOf (m : Mol) (i : Nat) : List Int :=
  (GetValenceList (atomicNumAt m i)).map (fun v => v - totalValence m i)

/-- `atom.GetNeighbors()`: the neighbours of atom `i` in the order of the
bond list, as RDKit stores them. -/
def neighborsOf (m : Mol) (i : Nat) : List Nat :=
  m.bonds.foldr
    (fun b acc =>
      if b.a1 = i then b.a2 :: acc else if b.a2 = i then b.a1 :: acc else acc) []

/-- `min(set_electrons.intersection(na_electrons), default=np.nan)`:
the minimum of the intersection, `none` standing for the NaN default. -/
def commonMin (xs ys : List Int) : Option Int :=
  (xs.filter (fun e => ys.contains e)).min?

/-- `atom.SetFormalCharge(c)` on atom `i`. -/
def setFormalCharge (m : Mol) (i : Nat) (c : Int) : Mol :=
  { m with atoms := m.atoms.mapIdx (fun j a => if j = i then { a with charge := c } else a) }

/-- `mol.GetBondBetweenAtoms(i, j)` followed by `bond.SetBondType`: rewrite
the order of the first bond joining `i` and `j`. -/
def setBondBetween (bs : List Bond) (i j : Nat) (ord : Nat) : List Bond :=
  match bs with
  | [] => []
  | b :: rest =>
    if (b.a1 = i ∧ b.a2 = j) ∨ (b.a1 = j ∧ b.a2 = i) then { b with order := ord } :: rest
    else b :: setBondBetween rest i j ord

/-- The neighbour loop of `update_bonds_and_charges` (utils.py:36-56) for
atom `a` with precomputed deficit list `electrons`: `idx` is the 1-based
enumeration counter and `total` the neighbour count.  NaN intersection at
the last neighbour assigns the fallback charge `-electrons[0]`; a non-zero
minimum rewrites the bond (double for 1, triple for 2, untouched
otherwise) and breaks out of the loop; a zero minimum moves on. -/
def processNeighbors (m : Mol) (a : Nat) (electrons : List Int) (total : Nat) :
    Nat → List Nat → Mol
  | _, [] => m
  | idx, n :: rest =>
    match commonMin electrons (electronsOf m n) with
    | none =>
      if idx = total then
        processNeighbors (setFormalCharge m a (-(electrons.headD 0))) a electrons total
          (idx + 1) rest
      else processNeighbors m a electrons total (idx + 1) rest
    | some k =>
      if k = 0 then processNeighbors m a electrons total (idx + 1) rest
      else if k = 1 then { m with bonds := setBondBetween m.bonds a n 2 }
      else if k = 2 then { m with bonds := setBondBetween m.bonds a n 3 }
      else m

/-- The body of the atom loop of `update_bonds_and_charges` (utils.py:19-56)
for one atom: either the single-negative-deficit positive-charge branch, or
the neighbour scan. -/
def processAtom (m : Mol) (i : Nat) : Mol :=
  let electrons := electronsOf m i
  if electrons.length = 1 ∧ electrons.headD 0 < 0 then
    setFormalCharge m i (-(electrons.headD 0))
  else
    let ns := neighborsOf m i
    processNeighbors m i electrons ns.length 1 ns

/-- `update_bonds_and_charges(mol)` (utils.py:14-57): process every atom in
index order, threading the mutated molecule.  The final
`Chem.SanitizeMol` is the external toolkit validation and is not part of
the mutation pass modelled here. -/
def update_bonds_and_charges (m : Mol) : Mol :=
  (List.range m.atoms.length).foldl processAtom m

/-- Hydrogen disulfide-like test molecule H-S-S-H with all single bonds:
both sulfur atoms have total valence 2, deficit list [0, 2, 4]. -/
def molHSSH : Mol :=
  { atoms := [⟨16, 0⟩, ⟨16, 0⟩, ⟨1, 0⟩, ⟨1, 0⟩]
  , bonds := [⟨0, 1, 1⟩, ⟨0, 2, 1⟩, ⟨1, 3, 1⟩] }

/-- Test molecule P-S-H with single bonds: the sulfur (index 0) has total
valence 2 and deficit list [0, 2, 4], the phosphorus (index 1) has total
valence 1 and deficit list [2, 4]. -/
def molPSH : Mol :=
  { atoms := [⟨16, 0⟩, ⟨15, 0⟩, ⟨1, 0⟩]
  , bonds := [⟨0, 1, 1⟩, ⟨0, 2, 1⟩] }

/-- Test molecule with a carbon (index 0) triple-bonded to a phosphorus
(index 1), the phosphorus also single-bonded to a second carbon (index 2)
which carries one hydrogen (index 3).  The bond list order makes atom 2 the
first neighbour of atom 1. -/
def molCPCH : Mol :=
  { atoms := [⟨6, 0⟩, ⟨15, 0⟩, ⟨6, 0⟩, ⟨1, 0⟩]
  , bonds := [⟨1, 2, 1⟩, ⟨0, 1, 3⟩, ⟨2, 3, 1⟩] }

/-- Ammonium-like test molecule: a nitrogen with four explicit hydrogens,
total valence 4 against the single allowed valence 3, deficit list [-1]. -/
def molNH4 : Mol :=
  { atoms := [⟨7, 0⟩, ⟨1, 0⟩, ⟨1, 0⟩, ⟨1, 0⟩, ⟨1, 0⟩]
  , bonds := [⟨0, 1, 1⟩, ⟨0, 2, 1⟩, ⟨0, 3, 1⟩, ⟨0, 4, 1⟩] }

/-- Two over-bonded phosphorus atoms bonded to each other, each carrying
five hydrogens: total valence 6 each, deficit list [-3, -1]. -/
def molPPH10 : Mol :=
  { atoms := [⟨15, 0⟩, ⟨15, 0⟩, ⟨1, 0⟩, ⟨1, 0⟩, ⟨1, 0⟩, ⟨1, 0⟩, ⟨1, 0⟩,
              ⟨1, 0⟩, ⟨1, 0⟩, ⟨1, 0⟩, ⟨1, 0⟩, ⟨1, 0⟩]
  , bonds := [⟨0, 1, 1⟩, ⟨0, 2, 1⟩, ⟨0, 3, 1⟩, ⟨0, 4, 1⟩, ⟨0, 5, 1⟩, ⟨0, 6, 1⟩,
              ⟨1, 7, 1⟩, ⟨1, 8, 1⟩, ⟨1, 9, 1⟩, ⟨1, 10, 1⟩, ⟨1, 11, 1⟩] }

/-- The two-residue example block of the spec: residue LIG1 with atoms
5, 6, 7 and bond 5-6, residue WAT1 with atoms 9, 10 and bond 9-10, and one
inter-residue bond 7-9. -/
def blockTwoRes : List (List Char) :=
  [ toL "@<TRIPOS>MOLECULE\n"
  , toL "m\n"
  , toL "5 3\n"
  , toL "SMALL\n"
  , toL "USER_CHARGES\n"
  , toL "@<TRIPOS>ATOM\n"
  , toL "5 C1 0.0 0.0 0.0 C.3 1 LIG1 0.0\n"
  , toL "6 C2 0.0 0.0 0.0 C.3 1 LIG1 0.0\n"
  , toL "7 C3 0.0 0.0 0.0 C.3 1 LIG1 0.0\n"
  , toL "9 O1 0.0 0.0 0.0 O.3 2 WAT1 0.0\n"
  , toL "10 H1 0.0 0.0 0.0 H 2 WAT1 0.0\n"
  , toL "@<TRIPOS>BOND\n"
  , toL "1 5 6 1\n"
  , toL "2 9 10 1\n"
  , toL "3 7 9 1\n" ]

/-- The structured residue blocks that `residue_records` yields on
`blockTwoRes`. -/
def recsTwoRes : List ResidueRec :=
  [ ⟨toL "LIG1",
     [ toL "1 C1 0.0 0.0 0.0 C.3 1 LIG1 0.0\n"
     , toL "2 C2 0.0 0.0 0.0 C.3 1 LIG1 0.0\n"
     , toL "3 C3 0.0 0.0 0.0 C.3 1 LIG1 0.0\n" ],
     [ toL "1 1 2 1\n" ]⟩
  , ⟨toL "WAT1",
     [ toL "1 O1 0.0 0.0 0.0 O.3 2 WAT1 0.0\n"
     , toL "2 H1 0.0 0.0 0.0 H 2 WAT1 0.0\n" ],
     [ toL "1 1 2 1\n" ]⟩ ]

/-- A parser stub that rejects any block mentioning WAT1 and returns every
other block unchanged; stands for an external parser failing on one
residue. -/
def parseNoWat (s : List Char) : Option (List Char) :=
  if containsMarker (toL "WAT1") s then none else some s

/-- A single-molecule block whose only atom line starts with a space before
the atom id, as mol2 writers commonly right-align ids. -/
def blockLeadingWs : List (List Char) :=
  [ toL "@<TRIPOS>MOLECULE\n"
  , toL "m\n"
  , toL "1 0\n"
  , toL "SMALL\n"
  , toL "USER_CHARGES\n"
  , toL "@<TRIPOS>ATOM\n"
  , toL " 5 C1 0.0 0.0 0.0 C.3 1 LIG1 0.0\n"
  , toL "@<TRIPOS>BOND\n" ]

/-- A mol2 file whose MOLECULE header declares 2 atoms and 3 bonds while
only one bond line exists after the BOND marker: the declared counts
exceed the available lines. -/
def linesShortBonds : List (List Char) :=
  [ toL "@<TRIPOS>MOLECULE\n"
  , toL "m\n"
  , toL "2 3\n"
  , toL "SMALL\n"
  , toL "USER_CHARGES\n"
  , toL "@<TRIPOS>ATOM\n"
  , toL "1 C1 0.0 0.0 0.0 C.3 1 LIG1 0.0\n"
  , toL "2 C2 0.0 0.0 0.0 C.3 1 LIG1 0.0\n"
  , toL "@<TRIPOS>BOND\n"
  , toL "1 1 2 1\n" ]

/-- A well-formed single-molecule mol2 file: one MOLECULE, ATOM and BOND
record, 2 atoms and 1 bond. -/
def linesOneMol : List (List Char) :=
  [ toL "@<TRIPOS>MOLECULE\n"
  , toL "m\n"
  , toL "2 1\n"
  , toL "SMALL\n"
  , toL "USER_CHARGES\n"
  , toL "@<TRIPOS>ATOM\n"
  , toL "1 C1 0.0 0.0 0.0 C.3 1 LIG1 0.0\n"
  , toL "2 C2 0.0 0.0 0.0 C.3 1 LIG1 0.0\n"
  , toL "@<TRIPOS>BOND\n"
  , toL "1 1 2 1\n" ]

/-- `linesOneMol` followed by a stray MOLECULE marker with no matching ATOM
or BOND record: the three scanned sequences have lengths 2, 1, 1. -/
def linesExtraMol : List (List Char) :=
  linesOneMol ++ [toL "@<TRIPOS>MOLECULE\n"]

/-- The three LIG1 atom lines of `blockTwoRes`, used as a stand-alone
renumbering input. -/
def linesLIG1atoms : List (List Char) :=
  [ toL "5 C1 0.0 0.0 0.0 C.3 1 LIG1 0.0\n"
  , toL "6 C2 0.0 0.0 0.0 C.3 1 LIG1 0.0\n"
  , toL "7 C3 0.0 0.0 0.0 C.3 1 LIG1 0.0\n" ]

/-! ## Helper lemmas -/

theorem setFormalCharge_bonds (m : Mol) (i : Nat) (c : Int) :
    (setFormalCharge m i c).bonds = m.bonds := rfl

theorem setFormalCharge_atoms_length (m : Mol) (i : Nat) (c : Int) :
    (setFormalCharge m i c).atoms.length = m.atoms.length := by
  simp [setFormalCharge]

theorem setBondBetween_endpoints (i j ord : Nat) :
    ∀ bs : List Bond,
      (setBondBetween bs i j ord).map (fun b => (b.a1, b.a2))
        = bs.map (fun b => (b.a1, b.a2)) := by
  intro bs
  induction bs with
  | nil => rfl
  | cons b rest ih =>
    by_cases h : (b.a1 = i ∧ b.a2 = j) ∨ (b.a1 = j ∧ b.a2 = i)
    · simp [setBondBetween, h]
    · simp [setBondBetween, h, ih]

theorem processNeighbors_graph (a : Nat) (e : List Int) (t : Nat) :
    ∀ (l : List Nat) (m : Mol) (idx : Nat),
      (processNeighbors m a e t idx l).atoms.length = m.atoms.length ∧
      (processNeighbors m a e t idx l).bonds.map (fun b => (b.a1, b.a2))
        = m.bonds.map (fun b => (b.a1, b.a2)) := by
  intro l
  induction l with
  | nil => intro m idx; exact ⟨rfl, rfl⟩
  | cons n rest ih =>
    intro m idx
    simp only [processNeighbors]
    cases hcm : commonMin e (electronsOf m n) with
    | none =>
      by_cases hidx : idx = t
      · simp only [hidx, if_pos rfl]
        have h1 := ih (setFormalCharge m a (-(e.headD 0))) (t + 1)
        exact ⟨h1.1.trans (setFormalCharge_atoms_length m a _), h1.2⟩
      · simp only [if_neg hidx]
        exact ih m (idx + 1)
    | some k =>
      by_cases h0 : k = 0
      · simp only [h0, if_pos rfl]
        exact ih m (idx + 1)
      · by_cases h1 : k = 1
        · simp only [if_neg h0, h1, if_pos rfl]
          exact ⟨rfl, setBondBetween_endpoints a n 2 m.bonds⟩
        · by_cases h2 : k = 2
          · simp only [if_neg h0, if_neg h1, h2, if_pos rfl]
            exact ⟨rfl, setBondBetween_endpoints a n 3 m.bonds⟩
          · simp only [if_neg h0, if_neg h1, if_neg h2]
            simp

theorem processAtom_graph (m : Mol) (i : Nat) :
    (processAtom m i).atoms.length = m.atoms.length ∧
    (processAtom m i).bonds.map (fun b => (b.a1, b.a2))
      = m.bonds.map (fun b => (b.a1, b.a2)) := by
  simp only [processAtom]
  by_cases h : (electronsOf m i).length = 1 ∧ (electronsOf m i).headD 0 < 0
  · simp only [if_pos h]
    exact ⟨setFormalCharge_atoms_length m i _, rfl⟩
  · simp only [if_neg h]
    exact processNeighbors_graph i (electronsOf m i) (neighborsOf m i).length
      (neighborsOf m i) m 1

theorem processNeighbors_skip_zeros (a : Nat) (e : List Int) (t : Nat) (m : Mol) :
    ∀ (l : List Nat) (idx : Nat),
      (∀ n ∈ l, commonMin e (electronsOf m n) = some 0) →
      processNeighbors m a e t idx l = m := by
  intro l
  induction l with
  | nil => intro idx _; rfl
  | cons n rest ih =>
    intro idx h
    have hn := h n (by simp)
    simp only [processNeighbors, hn, if_pos rfl]
    exact ih (idx + 1) (fun p hp => h p (by simp [hp]))

theorem processNeighbors_skip_leading (a : Nat) (e : List Int) (t : Nat) (m : Mol) :
    ∀ (pre : List Nat) (idx : Nat) (rest : List Nat),
      (∀ p ∈ pre, commonMin e (electronsOf m p) = some 0) →
      processNeighbors m a e t idx (pre ++ rest)
        = processNeighbors m a e t (idx + pre.length) rest := by
  intro pre
  induction pre with
  | nil => intro idx rest _; simp
  | cons p pre' ih =>
    intro idx rest h
    have hp := h p (by simp)
    simp only [List.cons_append, processNeighbors, hp, if_pos rfl, if_true,
      List.append_eq]
    rw [ih (idx + 1) rest (fun q hq => h q (by simp [hq]))]
    have harith : idx + 1 + pre'.length = idx + (p :: pre').length := by
      simp
      omega
    rw [harith]

theorem pySplitAux_token (cs : List Char) :
    ∀ (x : Char) (xs : List Char),
      pySplitAux (x :: xs) cs
        = ((x :: xs).reverse ++ cs.takeWhile (fun d => !isWs d))
          :: pySplit (cs.dropWhile (fun d => !isWs d)) := by
  induction cs with
  | nil =>
    intro x xs
    simp [pySplitAux, pySplit]
  | cons c cs ih =>
    intro x xs
    by_cases h : isWs c
    · simp only [pySplitAux, h, if_true, List.isEmpty_cons, List.takeWhile_cons,
        List.dropWhile_cons, Bool.not_true, if_false, Bool.false_eq_true]
      simp [pySplit, pySplitAux, h]
    · simp only [pySplitAux, h, if_false, List.takeWhile_cons, List.dropWhile_cons,
        Bool.not_false, if_true, Bool.false_eq_true]
      rw [ih c (x :: xs)]
      simp

theorem pySplit_cons_of_neg {c : Char} (h : isWs c = false) (cs : List Char) :
    pySplit (c :: cs) =
      (c :: cs.takeWhile (fun d => !isWs d)) :: pySplit (cs.dropWhile (fun d => !isWs d)) := by
  show pySplitAux [] (c :: cs) = _
  simp only [pySplitAux, h, if_false, Bool.false_eq_true]
  rw [pySplitAux_token cs c []]
  simp

theorem drop_length_takeWhile (p : Char → Bool) (l : List Char) :
    l.drop ((l.takeWhile p).length) = l.dropWhile p := by
  induction l with
  | nil => rfl
  | cons c cs ih =>
    by_cases h : p c
    · simp [List.takeWhile_cons, List.dropWhile_cons, h, ih]
    · simp [List.takeWhile_cons, List.dropWhile_cons, h]

theorem takeWhile_all_nonws (tok : List Char) :
    ∀ rest : List Char, (∀ c ∈ tok, isWs c = false) →
      (∀ r, rest.head? = some r → isWs r = true) →
      (tok ++ rest).takeWhile (fun d => !isWs d) = tok := by
  induction tok with
  | nil =>
    intro rest _ h2
    cases rest with
    | nil => rfl
    | cons r rs =>
      have hr := h2 r rfl
      simp [List.takeWhile_cons, hr]
  | cons c cs ih =>
    intro rest h1 h2
    have hc := h1 c (by simp)
    simp only [List.cons_append, List.takeWhile_cons, hc, Bool.not_false, if_true]
    rw [ih rest (fun x hx => h1 x (by simp [hx])) h2]

theorem head_dropWhile_ws (l : List Char) :
    ∀ r, (l.dropWhile (fun d => !isWs d)).head? = some r → isWs r = true := by
  intro r h
  have hd := List.head?_dropWhile_not (fun d => !isWs d) l
  rw [h] at hd
  simpa using hd

theorem digitChar_nonws (d : Nat) (h : d < 10) : isWs (Nat.digitChar d) = false := by
  interval_cases d <;> decide

theorem natToCharsAux_ne_nil :
    ∀ (fuel n : Nat) (acc : List Char),
      natToCharsAux fuel n acc = [] → fuel = 0 ∧ acc = [] := by
  intro fuel
  induction fuel with
  | zero => intro n acc h; exact ⟨rfl, h⟩
  | succ f ih =>
    intro n acc h
    by_cases hn : n < 10
    · simp [natToCharsAux, hn] at h
    · simp only [natToCharsAux, if_neg hn] at h
      have hcontr := ih (n / 10) (Nat.digitChar (n % 10) :: acc) h
      exact absurd hcontr.2 (by simp)

theorem natToChars_ne_nil (n : Nat) : natToChars n ≠ [] := by
  intro h
  have hfuel := natToCharsAux_ne_nil (n + 1) n [] h
  omega

theorem natToCharsAux_nonws :
    ∀ (fuel n : Nat) (acc : List Char),
      (∀ c ∈ acc, isWs c = false) →
      ∀ c ∈ natToCharsAux fuel n acc, isWs c = false := by
  intro fuel
  induction fuel with
  | zero => intro n acc hacc c hc; exact hacc c hc
  | succ f ih =>
    intro n acc hacc c hc
    by_cases hn : n < 10
    · simp only [natToCharsAux, if_pos hn] at hc
      rcases List.mem_cons.mp hc with h | h
      · subst h; exact digitChar_nonws n hn
      · exact hacc c h
    · simp only [natToCharsAux, if_neg hn] at hc
      refine ih (n / 10) _ ?_ c hc
      intro d hd
      rcases List.mem_cons.mp hd with h | h
      · subst h; exact digitChar_nonws (n % 10) (Nat.mod_lt _ (by omega))
      · exact hacc d h

theorem natToChars_nonws (n : Nat) : ∀ c ∈ natToChars n, isWs c = false :=
  natToCharsAux_nonws (n + 1) n [] (by simp)

theorem pySplit_head_token (tok rest : List Char) (h0 : tok ≠ [])
    (h1 : ∀ c ∈ tok, isWs c = false)
    (h2 : ∀ r, rest.head? = some r → isWs r = true) :
    (pySplit (tok ++ rest)).headD [] = tok := by
  obtain ⟨c, cs, rfl⟩ := List.exists_cons_of_ne_nil h0
  have hc := h1 c (by simp)
  rw [List.cons_append, pySplit_cons_of_neg hc]
  simp only [List.headD_cons]
  rw [takeWhile_all_nonws cs rest (fun x hx => h1 x (by simp [hx])) h2]

theorem firstField_new_line (k : Nat) (l : List Char) :
    (pySplit (natToChars k ++ l.dropWhile (fun d => !isWs d))).headD [] = natToChars k :=
  pySplit_head_token _ _ (natToChars_ne_nil k) (natToChars_nonws k) (head_dropWhile_ws l)

theorem renumberAtomsAux_eq (ls : List (List Char)) :
    ∀ i : Nat, (∀ l ∈ ls, l ≠ [] ∧ isWs (l.headD ' ') = false) →
      renumberAtomsAux i ls = Except.ok
        ((ls.enumFrom i).map
          (fun p => natToChars (p.1 + 1) ++ p.2.dropWhile (fun d => !isWs d)),
         (ls.enumFrom i).map
          (fun p => (p.2.takeWhile (fun d => !isWs d), p.1 + 1))) := by
  induction ls with
  | nil => intro i _; rfl
  | cons l rest ih =>
    intro i h
    obtain ⟨hne, hws⟩ := h l (by simp)
    obtain ⟨c, cs, rfl⟩ := List.exists_cons_of_ne_nil hne
    simp only [List.headD_cons] at hws
    rw [renumberAtomsAux]
    rw [pySplit_cons_of_neg hws]
    rw [ih (i + 1) (fun x hx => h x (by simp [hx]))]
    have hdrop : (c :: cs).drop ((c :: cs.takeWhile (fun d => !isWs d)).length)
        = (c :: cs).dropWhile (fun d => !isWs d) := by
      simp only [List.length_cons, List.drop_succ_cons,
        List.dropWhile_cons, hws, Bool.not_false, if_true]
      exact drop_length_takeWhile _ cs
    have htake : (c :: cs).takeWhile (fun d => !isWs d)
        = c :: cs.takeWhile (fun d => !isWs d) := by
      simp [List.takeWhile_cons, hws]
    simp only [List.enumFrom, List.map_cons]
    rw [← hdrop, htake]
    rfl

theorem length_filterMap_isSome {α β : Type} (f : α → Option β) (l : List α) :
    (l.filterMap f).length = (l.filter (fun a => (f a).isSome)).length := by
  induction l with
  | nil => rfl
  | cons a as ih =>
    cases h : f a <;> simp [List.filterMap_cons, List.filter_cons, h, ih]

/-! ## Claim theorems -/

/-- Claim C1, counterexample: on `linesShortBonds` the MOLECULE header
declares 2 atoms and 3 bonds, the declared window 5 + 2 + 3 + 2 = 12
exceeds the 10 available lines, yet `get_residues_from_mol2` returns a
successful result whose synthesized block holds a single bond - the input
is silently truncated, no malformed-input error is surfaced. -/
theorem get_residues_silently_truncates_cex :
    pyIntAt (pySplit (toL "2 3\n")) 1 = Except.ok 3 ∧
    linesShortBonds.length = 10 ∧
    ((linesShortBonds.length : Int) < ((5 : Nat) : Int) + 2 + 3 + 2) ∧
    get_residues_from_mol2 (fun s => some s) 0 5 8 linesShortBonds =
      Except.ok [(toL "LIG1",
        toL "@<TRIPOS>MOLECULE\nLIG1\n2 1\nSMALL\nUSER_CHARGES\n@<TRIPOS>ATOM\n1 C1 0.0 0.0 0.0 C.3 1 LIG1 0.0\n2 C2 0.0 0.0 0.0 C.3 1 LIG1 0.0\n@<TRIPOS>BOND\n1 1 2 1\n")] :=
  ⟨rfl, rfl, by decide, rfl⟩

/-- Claim C1, amended: when the declared counts exceed the available lines,
the block slice of `get_residues_from_mol2` raises nothing and silently
truncates - the extracted block consists of exactly the lines remaining
from `mol_line` on, shorter than the declared window. -/
theorem extract_block_truncates (mol_line first_atom_line : Nat)
    (num_atoms num_bonds : Int) (lines : List (List Char))
    (h : (lines.length : Int) < (first_atom_line : Int) + num_atoms + num_bonds + 2) :
    (extract_block mol_line first_atom_line num_atoms num_bonds lines).length
      = lines.length - mol_line := by
  unfold extract_block slicePy
  rw [List.length_drop, List.length_take]
  omega

/-- Witness for `extract_block_truncates` at the concrete truncated file. -/
theorem extract_block_truncates_witness :
    ((linesShortBonds.length : Int) < ((5 : Nat) : Int) + 2 + 3 + 2) ∧
    (extract_block 0 5 2 3 linesShortBonds).length = linesShortBonds.length - 0 :=
  ⟨by decide, extract_block_truncates 0 5 2 3 linesShortBonds (by decide)⟩

/-- Claim C2, counterexample: in `molHSSH` the deficit sets of the two
bonded sulfur atoms intersect in [0, 2, 4], which is non-empty and not the
singleton 0, with minimum positive common deficit 2; the claim demands a
triple-bond upgrade, but the code takes the plain minimum 0 of the
intersection, treats it as no actionable need, and the whole pass leaves
the molecule unchanged. -/
theorem common_zero_min_skips_cex :
    neighborsOf molHSSH 0 = [1, 2] ∧
    (electronsOf molHSSH 0).filter (fun e => (electronsOf molHSSH 1).contains e)
      = [0, 2, 4] ∧
    processAtom molHSSH 0 = molHSSH ∧
    update_bonds_and_charges molHSSH = molHSSH :=
  ⟨rfl, rfl, rfl, rfl⟩

/-- Claim C2, amended: the engine takes the plain minimum `k` of the
deficit-set intersection (which may be zero or negative, not the minimum
positive element); when `k` is non-zero it upgrades the bond to double for
`k = 1`, to triple for `k = 2`, leaves the bond type unchanged for any
other non-zero `k`, and stops processing further neighbours (the cached
valence state is recomputed on demand in this model); when `k` is zero it
moves on to the next neighbour instead. -/
theorem first_nonzero_common_min_acts (m : Mol) (a : Nat) (e : List Int)
    (total idx : Nat) (n : Nat) (rest : List Nat) (k : Int)
    (hc : commonMin e (electronsOf m n) = some k) (hk : k ≠ 0) :
    processNeighbors m a e total idx (n :: rest) =
      (if k = 1 then { m with bonds := setBondBetween m.bonds a n 2 }
       else if k = 2 then { m with bonds := setBondBetween m.bonds a n 3 }
       else m) := by
  simp only [processNeighbors, hc, if_neg hk]

/-- Witness for `first_nonzero_common_min_acts`: the C≡P pair of `molCPCH`
has common minimum 1, so the bond is rewritten to double and the remaining
neighbour list is irrelevant. -/
theorem first_nonzero_common_min_acts_witness :
    commonMin [1] (electronsOf molCPCH 1) = some 1 ∧
    processNeighbors molCPCH 0 [1] 1 1 [1] =
      (if (1 : Int) = 1 then { molCPCH with bonds := setBondBetween molCPCH.bonds 0 1 2 }
       else if (1 : Int) = 2 then { molCPCH with bonds := setBondBetween molCPCH.bonds 0 1 3 }
       else molCPCH) :=
  ⟨by decide, first_nonzero_common_min_acts molCPCH 0 [1] 1 1 1 [] 1 (by decide) (by decide)⟩

/-- Claim C3, counterexample: in `molPSH` the sulfur atom 0 has deficit set
[0, 2, 4] containing 0, yet processing atom 0 upgrades its bond to the
phosphorus neighbour to a triple bond (the common minimum with that
neighbour is 2), so an atom whose deficit set contains 0 is mutated. -/
theorem zero_deficit_atom_mutated_cex :
    (0 : Int) ∈ electronsOf molPSH 0 ∧
    molPSH.bonds.map Bond.order = [1, 1] ∧
    (processAtom molPSH 0).bonds.map Bond.order = [3, 1] ∧
    (update_bonds_and_charges molPSH).bonds.map Bond.order = [3, 1] :=
  ⟨by decide, rfl, rfl, rfl⟩

/-- Claim C3, amended: an atom whose deficit set contains 0 is left fully
unmutated only under the additional condition that the minimum of the
deficit-set intersection with every neighbour is 0; the zero in its own
deficit set does rule out the single-negative-deficit charge branch, but a
neighbour with a non-zero common minimum can still trigger a bond upgrade
or a fallback charge. -/
theorem zero_deficit_all_zero_min_skips (m : Mol) (i : Nat)
    (h0 : (0 : Int) ∈ electronsOf m i)
    (h1 : ∀ n ∈ neighborsOf m i,
      commonMin (electronsOf m i) (electronsOf m n) = some 0) :
    processAtom m i = m := by
  simp only [processAtom]
  have hne : ¬((electronsOf m i).length = 1 ∧ (electronsOf m i).headD 0 < 0) := by
    rintro ⟨hl, hh⟩
    rcases List.length_eq_one.mp hl with ⟨x, hx⟩
    rw [hx] at h0 hh
    simp at h0 hh
    omega
  rw [if_neg hne]
  exact processNeighbors_skip_zeros i (electronsOf m i) (neighborsOf m i).length m
    (neighborsOf m i) 1 h1

/-- Witness for `zero_deficit_all_zero_min_skips`: sulfur atom 0 of
`molHSSH` has 0 in its deficit set and common minimum 0 with both
neighbours, and is indeed skipped. -/
theorem zero_deficit_all_zero_min_skips_witness :
    (0 : Int) ∈ electronsOf molHSSH 0 ∧
    (∀ n ∈ neighborsOf molHSSH 0,
      commonMin (electronsOf molHSSH 0) (electronsOf molHSSH n) = some 0) ∧
    processAtom molHSSH 0 = molHSSH :=
  ⟨by decide, by decide, zero_deficit_all_zero_min_skips molHSSH 0 (by decide) (by decide)⟩

/-- Claim C4, counterexample: `linesExtraMol` has two MOLECULE records but
only one ATOM and one BOND record, yet `mol2_reader` returns a successful
result holding the one zipped molecule - the trailing MOLECULE record is
silently dropped by the truncating zip, no data error is surfaced. -/
theorem mol2_reader_truncating_zip_cex :
    (get_mol2_records linesExtraMol).1.length = 2 ∧
    (get_mol2_records linesExtraMol).2.1.length = 1 ∧
    (get_mol2_records linesExtraMol).2.2.length = 1 ∧
    mol2_reader (fun s => some s) linesExtraMol =
      Except.ok [(toL "LIG1",
        toL "@<TRIPOS>MOLECULE\nLIG1\n2 1\nSMALL\nUSER_CHARGES\n@<TRIPOS>ATOM\n1 C1 0.0 0.0 0.0 C.3 1 LIG1 0.0\n2 C2 0.0 0.0 0.0 C.3 1 LIG1 0.0\n@<TRIPOS>BOND\n1 1 2 1\n")] :=
  ⟨rfl, rfl, rfl, rfl⟩

/-- Claim C4, amended: `mol2_reader` performs no equal-length validation of
the three record sequences; it agrees with the spec-side checked variant
`mol2_reader_spec` exactly on inputs whose three sequences have equal
lengths, and on unequal lengths it silently truncates to the shortest
sequence instead of raising a data error. -/
theorem mol2_reader_matches_spec_on_equal_lengths {α : Type}
    (parse : List Char → Option α) (lines : List (List Char))
    (h : (get_mol2_records lines).1.length = (get_mol2_records lines).2.1.length ∧
         (get_mol2_records lines).2.1.length = (get_mol2_records lines).2.2.length) :
    mol2_reader parse lines = mol2_reader_spec parse lines := by
  simp only [mol2_reader, mol2_reader_spec]
  rw [if_pos h]

/-- Witness for `mol2_reader_matches_spec_on_equal_lengths` on the
well-formed single-molecule file. -/
theorem mol2_reader_matches_spec_on_equal_lengths_witness :
    ((get_mol2_records linesOneMol).1.length = (get_mol2_records linesOneMol).2.1.length ∧
     (get_mol2_records linesOneMol).2.1.length = (get_mol2_records linesOneMol).2.2.length) ∧
    mol2_reader (fun s => some s) linesOneMol
      = mol2_reader_spec (fun s => some s) linesOneMol :=
  ⟨by decide, mol2_reader_matches_spec_on_equal_lengths (fun s => some s) linesOneMol (by decide)⟩

/-- Claim C5, counterexample: on `blockLeadingWs`, whose single atom line
starts with a space before the id 5, the renumbering emits the line with
leading field 15 (the new id 1 concatenated with the leftover of the old
id after dropping one character), so the emitted local ids are not
the set containing exactly 1 and the trailing fields are not preserved. -/
theorem renumber_leading_ws_cex :
    residue_records blockLeadingWs = Except.ok
      [⟨toL "LIG1", [toL "15 C1 0.0 0.0 0.0 C.3 1 LIG1 0.0\n"], []⟩] ∧
    (pySplit (toL "15 C1 0.0 0.0 0.0 C.3 1 LIG1 0.0\n")).headD [] = toL "15" ∧
    toL "15" ≠ natToChars 1 :=
  ⟨rfl, rfl, by decide⟩

/-- Claim C5, amended: when every atom line of the residue starts directly
with its id token (no leading whitespace), the renumbering loop of
`residues_from_block` replaces the leading id by the new 1-based contiguous
id and keeps the remainder of the line verbatim, and the leading fields of
the emitted lines are exactly the ids 1 to n in order; an atom line with
leading whitespace instead has the new id spliced into the whitespace,
corrupting the id field. -/
theorem renumber_atoms_contiguous_ids (ls : List (List Char))
    (h : ∀ l ∈ ls, l ≠ [] ∧ isWs (l.headD ' ') = false) :
    renumberAtoms ls = Except.ok
      (ls.enum.map (fun p => natToChars (p.1 + 1) ++ p.2.dropWhile (fun d => !isWs d)),
       ls.enum.map (fun p => (p.2.takeWhile (fun d => !isWs d), p.1 + 1))) ∧
    (ls.enum.map (fun p => natToChars (p.1 + 1) ++ p.2.dropWhile (fun d => !isWs d))).map
        (fun l => (pySplit l).headD [])
      = (List.range ls.length).map (fun i => natToChars (i + 1)) := by
  constructor
  · exact renumberAtomsAux_eq ls 0 h
  · rw [List.map_map]
    have hcong : List.map
        ((fun l => (pySplit l).headD []) ∘
          fun p : Nat × List Char => natToChars (p.1 + 1) ++ p.2.dropWhile (fun d => !isWs d))
        ls.enum
        = List.map (fun p : Nat × List Char => natToChars (p.1 + 1)) ls.enum :=
      List.map_congr_left (fun p _ => firstField_new_line (p.1 + 1) p.2)
    rw [hcong]
    rw [show (fun p : Nat × List Char => natToChars (p.1 + 1))
        = (fun i => natToChars (i + 1)) ∘ Prod.fst from rfl]
    rw [← List.map_map, List.enum_map_fst]

/-- Witness for `renumber_atoms_contiguous_ids` on the three LIG1 atom
lines. -/
theorem renumber_atoms_contiguous_ids_witness :
    (∀ l ∈ linesLIG1atoms, l ≠ [] ∧ isWs (l.headD ' ') = false) ∧
    (renumberAtoms linesLIG1atoms = Except.ok
      (linesLIG1atoms.enum.map
        (fun p => natToChars (p.1 + 1) ++ p.2.dropWhile (fun d => !isWs d)),
       linesLIG1atoms.enum.map
        (fun p => (p.2.takeWhile (fun d => !isWs d), p.1 + 1))) ∧
     (linesLIG1atoms.enum.map
        (fun p => natToChars (p.1 + 1) ++ p.2.dropWhile (fun d => !isWs d))).map
          (fun l => (pySplit l).headD [])
        = (List.range linesLIG1atoms.length).map (fun i => natToChars (i + 1))) :=
  ⟨by decide, renumber_atoms_contiguous_ids linesLIG1atoms (by decide)⟩

/-- Claim C6: an atom whose allowed-valence list yields exactly one deficit,
negative, receives the positive formal charge equal to its magnitude and no
bond of the molecule is touched by that step; this covers in particular
atoms with zero neighbours, since the neighbour loop is never entered. -/
theorem single_negative_deficit_sets_positive_charge (m : Mol) (i : Nat) (e : Int)
    (h1 : electronsOf m i = [e]) (h2 : e < 0) :
    processAtom m i = setFormalCharge m i (-e) ∧
    (processAtom m i).bonds = m.bonds ∧ 0 < -e := by
  have hcond : (electronsOf m i).length = 1 ∧ (electronsOf m i).headD 0 < 0 := by
    rw [h1]
    exact ⟨rfl, h2⟩
  have hpa : processAtom m i = setFormalCharge m i (-e) := by
    simp only [processAtom, if_pos hcond]
    rw [h1]
    rfl
  refine ⟨hpa, ?_, by omega⟩
  rw [hpa]
  rfl

/-- Witness for `single_negative_deficit_sets_positive_charge` on the
ammonium-like molecule. -/
theorem single_negative_deficit_sets_positive_charge_witness :
    electronsOf molNH4 0 = [-1] ∧
    (processAtom molNH4 0 = setFormalCharge molNH4 0 (-(-1)) ∧
     (processAtom molNH4 0).bonds = molNH4.bonds ∧ (0 : Int) < -(-1)) :=
  ⟨by decide, single_negative_deficit_sets_positive_charge molNH4 0 (-1) (by decide) (by decide)⟩

/-- Claim C7, counterexample: on `molCPCH` the triple bond between atoms 0
and 1 finishes the repair pass as a double bond - the pass first rewrites
it to double while processing atom 0, then processing atom 1 upgrades the
bond to atom 2 and breaks, never restoring the first bond.  A bond order
can therefore decrease across the pass. -/
theorem bond_order_decreases_cex :
    molCPCH.bonds.map Bond.order = [1, 3, 1] ∧
    (update_bonds_and_charges molCPCH).bonds.map Bond.order = [3, 2, 1] :=
  ⟨rfl, rfl⟩

/-- Claim C7, amended: the edge set is invariant - the repair pass never
adds or removes a bond and never changes the endpoints of a bond (and the
atom count is preserved); bond orders, however, can decrease as well as
increase. -/
theorem update_preserves_edge_set (m : Mol) :
    (update_bonds_and_charges m).atoms.length = m.atoms.length ∧
    (update_bonds_and_charges m).bonds.map (fun b => (b.a1, b.a2))
      = m.bonds.map (fun b => (b.a1, b.a2)) := by
  unfold update_bonds_and_charges
  generalize List.range m.atoms.length = is
  induction is generalizing m with
  | nil => exact ⟨rfl, rfl⟩
  | cons i rest ih =>
    simp only [List.foldl_cons]
    have h1 := processAtom_graph m i
    have h2 := ih (processAtom m i)
    exact ⟨h2.1.trans h1.1, h2.2.trans h1.2⟩

/-- Claim C8: splitting the two-residue example block yields exactly the
LIG1 block with local atom ids 1, 2, 3 and the single bond line 1 1 2 1,
and the WAT1 block with local atom ids 1, 2 and the single bond line
1 1 2 1; the inter-residue bond 7-9 appears in neither synthesized block. -/
theorem two_residue_block_split :
    residues_from_block (fun s => some s) blockTwoRes = Except.ok
      [ (toL "LIG1",
         toL "@<TRIPOS>MOLECULE\nLIG1\n3 1\nSMALL\nUSER_CHARGES\n@<TRIPOS>ATOM\n1 C1 0.0 0.0 0.0 C.3 1 LIG1 0.0\n2 C2 0.0 0.0 0.0 C.3 1 LIG1 0.0\n3 C3 0.0 0.0 0.0 C.3 1 LIG1 0.0\n@<TRIPOS>BOND\n1 1 2 1\n"),
        (toL "WAT1",
         toL "@<TRIPOS>MOLECULE\nWAT1\n2 1\nSMALL\nUSER_CHARGES\n@<TRIPOS>ATOM\n1 O1 0.0 0.0 0.0 O.3 2 WAT1 0.0\n2 H1 0.0 0.0 0.0 H 2 WAT1 0.0\n@<TRIPOS>BOND\n1 1 2 1\n") ] :=
  rfl

/-- Claim C9: a parser failure on one synthesized per-residue block is
non-fatal - `residues_from_block` still returns successfully, its output
has exactly one entry per residue whose block parses, and every residue
whose block parses appears in the output tagged with its residue name. -/
theorem parse_failure_nonfatal {α : Type} (parse : List Char → Option α)
    (block : List (List Char)) (rs : List ResidueRec)
    (h : residue_records block = Except.ok rs) :
    ∃ out, residues_from_block parse block = Except.ok out ∧
      out.length = (rs.filter (fun r => (parse (assembleBlock r)).isSome)).length ∧
      ∀ r ∈ rs, ∀ mm, parse (assembleBlock r) = some mm → (r.name, mm) ∈ out := by
  refine ⟨rs.filterMap (fun r => (parse (assembleBlock r)).map (fun mm => (r.name, mm))),
    ?_, ?_, ?_⟩
  · unfold residues_from_block
    rw [h]
    rfl
  · rw [length_filterMap_isSome]
    congr 1
    apply List.filter_congr
    intro r _
    cases parse (assembleBlock r) <;> rfl
  · intro r hr mm hmm
    exact List.mem_filterMap.mpr ⟨r, hr, by rw [hmm]; rfl⟩

/-- Witness for `parse_failure_nonfatal`: the parser stub fails on the WAT1
block of the two-residue example and the LIG1 residue is still returned. -/
theorem parse_failure_nonfatal_witness :
    residue_records blockTwoRes = Except.ok recsTwoRes ∧
    (∃ out, residues_from_block parseNoWat blockTwoRes = Except.ok out ∧
      out.length
        = (recsTwoRes.filter (fun r => (parseNoWat (assembleBlock r)).isSome)).length ∧
      ∀ r ∈ recsTwoRes, ∀ mm, parseNoWat (assembleBlock r) = some mm
        → (r.name, mm) ∈ out) :=
  ⟨rfl, parse_failure_nonfatal parseNoWat blockTwoRes recsTwoRes rfl⟩

/-- Claim C10: when the first neighbour of an atom that shares a non-zero
common-minimum deficit yields a value that is neither 1 nor 2 (after any
earlier neighbours whose common minimum was 0), the engine neither
rewrites any bond nor assigns any charge, and it stops scanning: the atom
step returns the molecule unchanged regardless of the remaining
neighbours. -/
theorem nonupgradable_common_min_stops (m : Mol) (i : Nat) (pre : List Nat)
    (n : Nat) (rest : List Nat) (k : Int)
    (hn : neighborsOf m i = pre ++ n :: rest)
    (hb : ¬((electronsOf m i).length = 1 ∧ (electronsOf m i).headD 0 < 0))
    (hpre : ∀ p ∈ pre, commonMin (electronsOf m i) (electronsOf m p) = some 0)
    (hk : commonMin (electronsOf m i) (electronsOf m n) = some k)
    (h0 : k ≠ 0) (h1 : k ≠ 1) (h2 : k ≠ 2) :
    processAtom m i = m := by
  simp only [processAtom]
  rw [if_neg hb, hn]
  rw [processNeighbors_skip_leading i (electronsOf m i) (pre ++ n :: rest).length m
    pre 1 (n :: rest) hpre]
  simp only [processNeighbors, hk]
  rw [if_neg h0, if_neg h1, if_neg h2]

/-- Witness for `nonupgradable_common_min_stops` on the over-bonded
two-phosphorus molecule, whose first neighbour pair has common minimum -3. -/
theorem nonupgradable_common_min_stops_witness :
    neighborsOf molPPH10 0 = [] ++ 1 :: [2, 3, 4, 5, 6] ∧
    commonMin (electronsOf molPPH10 0) (electronsOf molPPH10 1) = some (-3) ∧
    processAtom molPPH10 0 = molPPH10 :=
  ⟨by decide, by decide,
   nonupgradable_common_min_stops molPPH10 0 [] 1 [2, 3, 4, 5, 6] (-3)
     (by decide) (by decide) (by decide) (by decide) (by decide) (by decide) (by decide)⟩
